import Mathlib

/-!
Verification of the app-launcher inventory and launch core
(src/app-launcher/server.py).

The development shallowly embeds the Python module: records become a
fixed-shape structure with optional fields, the module-level cache becomes
an explicit state value threaded through the operations, the filesystem and
the two process-spawning launchers become an explicit environment of
Boolean and Option-valued functions, and timestamps become integers.
Python string operations are modelled over lists of characters so that all
definitions evaluate inside the kernel; casefold and lower are modelled by
per-character ASCII lowering, which agrees with Python on the ASCII strings
appearing in this module. The registry collector body only reads the
Windows registry, so its contribution is passed in as an input sequence;
the start-menu collector (function get_start_apps of the source) is
embedded over an explicit description of the external PowerShell call.
-/

/-- Model of Python str.strip with no arguments: remove leading and trailing
whitespace. -/
def pyStrip (s : String) : String :=
  String.mk (((s.toList.dropWhile Char.isWhitespace).reverse.dropWhile
    Char.isWhitespace).reverse)

/-- Model of Python str.lower, per-character ASCII lowering. -/
def pyLower (s : String) : String :=
  String.mk (s.toList.map Char.toLower)

/-- Model of Python str.casefold. On ASCII data casefold and lower agree,
so both are modelled by the same per-character lowering. -/
def pyCasefold (s : String) : String :=
  String.mk (s.toList.map Char.toLower)

/-- Lexicographic comparison of character lists by code point, the order
Python uses to compare strings. -/
def lexLe : List Char → List Char → Bool
  | [], _ => true
  | _ :: _, [] => false
  | a :: as, b :: bs => if a < b then true else if b < a then false else lexLe as bs

/-- Model of Python string comparison (the order used by sorted). -/
def strLe (x y : String) : Bool := lexLe x.toList y.toList

theorem lexLe_total : ∀ a b : List Char, lexLe a b = true ∨ lexLe b a = true
  | [], _ => Or.inl rfl
  | _ :: _, [] => Or.inr rfl
  | x :: xs, y :: ys => by
    rcases lt_trichotomy x y with h | h | h
    · left; simp [lexLe, h]
    · subst h
      rcases lexLe_total xs ys with h2 | h2 <;> [left; right] <;>
        simp [lexLe, lt_irrefl, h2]
    · right; simp [lexLe, h]

theorem lexLe_trans : ∀ a b c : List Char,
    lexLe a b = true → lexLe b c = true → lexLe a c = true
  | [], _, _, _, _ => rfl
  | _ :: _, [], _, h, _ => by simp [lexLe] at h
  | _ :: _, _ :: _, [], _, h => by simp [lexLe] at h
  | x :: xs, y :: ys, z :: zs, h1, h2 => by
    simp only [lexLe] at h1 h2 ⊢
    rcases lt_trichotomy x y with hxy | hxy | hxy
    · rcases lt_trichotomy y z with hyz | hyz | hyz
      · simp [lt_trans hxy hyz]
      · subst hyz; simp [hxy]
      · simp [hyz, asymm hyz] at h2
    · subst hxy
      simp [lt_irrefl] at h1
      rcases lt_trichotomy x z with hxz | hxz | hxz
      · simp [hxz]
      · subst hxz
        simp [lt_irrefl] at h2 ⊢
        exact lexLe_trans _ _ _ h1 h2
      · simp [hxz, asymm hxz] at h2
    · simp [hxy, asymm hxy] at h1

/-- The string order as a relation, for use with sorting. -/
def strLeR : String → String → Prop := fun x y => strLe x y = true

instance : DecidableRel strLeR := fun x y => by unfold strLeR; infer_instance

instance : IsTotal String strLeR := ⟨fun _ _ => lexLe_total _ _⟩

instance : IsTrans String strLeR := ⟨fun _ _ _ h1 h2 => lexLe_trans _ _ _ h1 h2⟩

/-- needle is a leading segment of the second list. -/
def leadEq : List Char → List Char → Bool
  | [], _ => true
  | _ :: _, [] => false
  | a :: as, b :: bs => a == b && leadEq as bs

/-- Model of the Python in operator on strings: the needle occurs as a
contiguous substring of the haystack. -/
def occursIn (needle : List Char) : List Char → Bool
  | [] => leadEq needle []
  | c :: cs => leadEq needle (c :: cs) || occursIn needle cs

/-- One discovered application, mirroring the record dictionaries the
collectors build (see get_registry_apps and get_start_apps in the source).
A missing or None value is modelled as none. -/
structure App where
  name : String
  app_id : Option String := none
  exe_path : Option String := none
  version : Option String := none
  publisher : Option String := none
  install_location : Option String := none
  sources : List String := []
deriving DecidableEq

/-- Python truthiness of an optional string field: None and the empty
string are falsy. -/
def truthy : Option String → Bool
  | none => false
  | some s => !(s == "")

/-- Embedding of the source function normalize_name: strip then casefold. -/
def normalize_name (s : String) : String := pyCasefold (pyStrip s)

/-- The normalized key of a record, used for identity matching. -/
def keyOf (a : App) : String := normalize_name a.name

/-- Sorted list of the distinct members of the union of two tag lists,
the model of sorted(set(a) union set(b)) in merge_apps. -/
def sortedUnion (a b : List String) : List String :=
  List.insertionSort strLeR ((a ++ b).dedup)

/-- One field step of merge_apps: take the incoming value only when the
existing value is falsy and the incoming one is truthy. -/
def mergeField (p i : Option String) : Option String :=
  if !truthy p && truthy i then i else p

/-- Embedding of the source function merge_apps. -/
def merge_apps (primary incoming : App) : App :=
  { primary with
      app_id := mergeField primary.app_id incoming.app_id
      exe_path := mergeField primary.exe_path incoming.exe_path
      version := mergeField primary.version incoming.version
      publisher := mergeField primary.publisher incoming.publisher
      install_location := mergeField primary.install_location incoming.install_location
      sources := sortedUnion primary.sources incoming.sources }

/-- Insert a record into the association list modelling the Python dict
deduped of get_all_apps: merge onto an existing entry with the same key,
keeping its position, otherwise append at the end. -/
def upsert (m : List (String × App)) (key : String) (a : App) : List (String × App) :=
  match m with
  | [] => [(key, a)]
  | (k, e) :: rest =>
    if k = key then (k, merge_apps e a) :: rest
    else (k, e) :: upsert rest key a

/-- The dedupe loop of get_all_apps: fold the records into a dict keyed by
the normalized name, in input order, and read the values back out in
insertion order. -/
def dedupe_apps (apps : List App) : List App :=
  (apps.foldl (fun m a => upsert m (normalize_name a.name) a) []).map Prod.snd

/-- Sort key relation of get_all_apps: case-insensitive display name. -/
def nameLe (a b : App) : Prop := strLe (pyLower a.name) (pyLower b.name) = true

instance : DecidableRel nameLe := fun a b => by unfold nameLe; infer_instance

instance : IsTotal App nameLe := ⟨fun _ _ => lexLe_total _ _⟩

instance : IsTrans App nameLe := ⟨fun _ _ _ h1 h2 => lexLe_trans _ _ _ h1 h2⟩

/-- The snapshot produced by one rebuild in get_all_apps: dedupe and merge,
then sort by case-insensitive name. -/
def rebuild (apps : List App) : List App :=
  List.insertionSort nameLe (dedupe_apps apps)

/-- The module-level cache APP_CACHE of the source: a build timestamp and
the list of merged records. -/
structure Cache where
  timestamp : Int
  apps : List App
deriving DecidableEq

def CACHE_TTL_SECONDS : Int := 300

/-- Embedding of the source function get_all_apps. The clock value and the
two collector contributions are passed in explicitly; the function returns
the visible result together with the new cache state. -/
def get_all_apps (cache : Cache) (now : Int) (refresh : Bool)
    (startApps regApps : List App) : List App × Cache :=
  if !refresh && !cache.apps.isEmpty && decide (now - cache.timestamp < CACHE_TTL_SECONDS) then
    (cache.apps, cache)
  else
    let result := rebuild (startApps ++ regApps)
    (result, ⟨now, result⟩)

/-- One entry of the JSON the PowerShell Get-StartApps call prints: the
Name and AppID values, each possibly absent. -/
structure PSItem where
  itemName : Option String
  itemAppId : Option String
deriving DecidableEq

/-- One element of a parsed top-level JSON list. The source only checks the
shape of the top-level value, not of the elements, so an element may be any
JSON value: a dict, or something else, on which item.get raises. -/
inductive PSElem where
  | dict (item : PSItem)
  | nondict
deriving DecidableEq

/-- Outcome of json.loads on the PowerShell output: the parse raised, a
single dict, a list of arbitrary elements, or a value of some other
shape. -/
inductive PSParse where
  | failed
  | dict (item : PSItem)
  | arr (items : List PSElem)
  | other
deriving DecidableEq

/-- Observed result of a subprocess.run call that returned: exit code, raw
standard output and the result of parsing it. -/
structure PSRun where
  returncode : Int
  stdout : String
  parsed : PSParse
deriving DecidableEq

/-- Description of one external PowerShell invocation as observed by
get_start_apps: the platform flag, and the run outcome, where none models
subprocess.run itself raising (for example FileNotFoundError when the
binary is missing); the source wraps that call in no try block, so such an
exception propagates out of the collector. -/
structure PSEnv where
  platformWin32 : Bool
  run : Option PSRun
deriving DecidableEq

/-- One loop iteration of get_start_apps on a dict element: skip entries
whose Name or AppID is absent or empty, strip the kept values, tag the
record startapps. -/
def itemApp (it : PSItem) : Option App :=
  match it.itemName, it.itemAppId with
  | some n, some a =>
    if n == "" || a == "" then none
    else some { name := pyStrip n, app_id := some (pyStrip a), sources := ["startapps"] }
  | _, _ => none

/-- The element loop of get_start_apps: elements are visited in order and a
non-dict element makes item.get raise AttributeError, aborting the whole
collector call (the loop body has no try block); records gathered before
the raise are discarded with the frame. -/
def elemsToApps : List PSElem → Except String (List App)
  | [] => .ok []
  | .nondict :: _ => .error "AttributeError: item.get"
  | .dict it :: rest =>
    match elemsToApps rest with
    | .error e => .error e
    | .ok apps => .ok ((itemApp it).toList ++ apps)

/-- Embedding of the source function get_start_apps. The value is an
Except to express Python exception flow: ok is a normal return (the
absorbed failure modes all return the empty list), error is an uncaught
exception escaping the collector, which happens when subprocess.run itself
raises or when a parsed list holds a non-dict element. -/
def get_start_apps (env : PSEnv) : Except String (List App) :=
  if !env.platformWin32 then .ok []
  else
    match env.run with
    | none => .error "subprocess.run raised"
    | some r =>
      if r.returncode != 0 then .ok []
      else if pyStrip r.stdout == "" then .ok []
      else
        match r.parsed with
        | .failed => .ok []
        | .other => .ok []
        | .dict it => elemsToApps [PSElem.dict it]
        | .arr items => elemsToApps items

/-- Embedding of the source function get_all_apps with the call to the
start-menu collector inlined, as at line 157 of the source, where no try
block surrounds it: an exception raised by the collector propagates and
aborts the rebuild, so no snapshot is built or stored. The registry
contribution stays an input sequence, since get_registry_apps wraps every
registry read in try blocks and cannot raise. -/
def get_all_apps_with_collector (cache : Cache) (now : Int) (refresh : Bool)
    (env : PSEnv) (regApps : List App) : Except String (List App × Cache) :=
  if !refresh && !cache.apps.isEmpty && decide (now - cache.timestamp < CACHE_TTL_SECONDS) then
    .ok (cache.apps, cache)
  else
    match get_start_apps env with
    | .error e => .error e
    | .ok startApps =>
      let result := rebuild (startApps ++ regApps)
      .ok (result, ⟨now, result⟩)

/-- Source filter of the list_installed_apps handler: the two conditional
assignments to allowed, one per include flag. -/
def allowedBySource (include_registry include_start : Bool) (a : App) : Bool :=
  (include_registry && a.sources.contains "registry")
    || (include_start && a.sources.contains "startapps")

/-- The JSON body answered by list_installed_apps on success. -/
structure ListReply where
  count : Nat
  apps : List App
deriving DecidableEq

/-- The filtering for-loop of the list_installed_apps handler: skip records
rejected by the source filter, skip records whose case-folded name does not
contain a non-empty query, append the rest in order. -/
def queryLoop (include_registry include_start : Bool) (query : String)
    (apps : List App) : List App :=
  apps.foldl
    (fun acc app =>
      if !allowedBySource include_registry include_start app then acc
      else if query != "" && !occursIn query.toList (pyCasefold app.name).toList then acc
      else acc ++ [app]) []

/-- Embedding of the list_installed_apps branch of call_tool. The win32
flag models the sys.platform guard at the top of call_tool; a false value
yields the platform error. The limit conversion mirrors the Python
expression int(arguments.get plus or-default), under which a missing or
zero limit becomes 200 because 0 is falsy. -/
def list_installed_apps (win32 : Bool) (cache : Cache) (now : Int)
    (startApps regApps : List App)
    (arg_query : Option String) (arg_limit : Option Int)
    (include_registry include_start refresh : Bool) :
    Except String ListReply × Cache :=
  if !win32 then (.error "This tool is only supported on Windows.", cache)
  else
    let query := pyCasefold (pyStrip (arg_query.getD ""))
    let lim : Int := match arg_limit with
      | none => 200
      | some n => if n = 0 then 200 else n
    let pr := get_all_apps cache now refresh startApps regApps
    let filtered := queryLoop include_registry include_start query pr.1
    let final := filtered.take (max 1 lim).toNat
    (.ok ⟨final.length, final⟩, pr.2)

/-- External behavior consumed by the launch_app handler: os.path.exists,
and the two subprocess.Popen launch calls. For a launch call, none means
process creation succeeded and some carries the exception text. -/
structure Env where
  fileExists : String → Bool
  appIdLaunch : String → Option String
  exeLaunch : String → String → Option String

/-- A launcher invocation performed by the handler (a Popen side effect):
either the AppID route through explorer.exe, or a direct executable start
with a working directory. -/
inductive LaunchAction where
  | appId (id : String)
  | exe (path : String) (cwd : String)
deriving DecidableEq

/-- The launched payload of a successful reply. -/
structure LaunchedInfo where
  name : Option String
  app_id : Option String
  exe_path : Option String
  method : String
deriving DecidableEq

/-- A candidate entry of the ambiguous-match reply: name, app_id and
exe_path only. -/
structure Candidate where
  name : String
  app_id : Option String
  exe_path : Option String
deriving DecidableEq

def candidateOf (a : App) : Candidate := ⟨a.name, a.app_id, a.exe_path⟩

/-- The JSON body answered by launch_app: success with a launched payload,
or failure with an error text and an optional candidate list. -/
inductive LaunchReply where
  | success (launched : LaunchedInfo)
  | failure (error : String) (matchList : Option (List Candidate))
deriving DecidableEq

def isSep (c : Char) : Bool := c == '\\' || c == '/'

/-- Helper of parentDir: the characters before the last path separator,
or none when the path has no separator. -/
def beforeLastSep : List Char → Option (List Char)
  | [] => none
  | c :: cs =>
    match beforeLastSep cs with
    | some rest => some (c :: rest)
    | none => if isSep c then some [] else none

/-- Model of str(Path(p).parent) for the Windows paths the handler feeds
it: the path up to the last separator, a bare drive keeping its root
separator, and a separator-free path giving the dot directory. -/
def parentDir (p : String) : String :=
  match beforeLastSep p.toList with
  | none => "."
  | some [] => String.mk ['\\']
  | some pre => if pre.getLast? == some ':' then String.mk (pre ++ ['\\']) else String.mk pre

/-- Candidate selection of the launch_app handler: exact compares the
normalized names, otherwise the normalized request name must occur inside
the normalized record name. -/
def computeMatches (apps : List App) (name_key : String) (exact : Bool) : List App :=
  if exact then apps.filter (fun a => normalize_name a.name == name_key)
  else apps.filter (fun a => occursIn name_key.toList (normalize_name a.name).toList)

/-- The single-candidate tail of the launch_app handler (the launch-method
priority chain): AppID first, then an existing executable path started in
its parent directory, otherwise the no-launch-method failure. Returns the
reply together with the launcher invocations performed. -/
def launchSingle (env : Env) (m : App) : LaunchReply × List LaunchAction :=
  if truthy m.app_id then
    let id := m.app_id.getD ""
    match env.appIdLaunch id with
    | none => (.success ⟨some m.name, some id, none, "startapps"⟩, [.appId id])
    | some e => (.failure ("Failed to launch AppID: " ++ e) none, [.appId id])
  else
    let p := m.exe_path.getD ""
    if truthy m.exe_path && env.fileExists p then
      match env.exeLaunch p (parentDir p) with
      | none => (.success ⟨some m.name, none, some p, "exe"⟩, [.exe p (parentDir p)])
      | some e => (.failure ("Failed to launch exe: " ++ e) none, [.exe p (parentDir p)])
    else
      (.failure "No launch method available for this app. Try using app_id from list_installed_apps." none, [])

/-- Embedding of the launch_app branch of call_tool. Returns the reply,
the launcher invocations performed, and the new cache state. The quotation
marks the source places around the echoed name inside the no-match error
text are elided from the model. -/
def launch_app (win32 : Bool) (env : Env) (cache : Cache) (now : Int)
    (startApps regApps : List App)
    (arg_app_id arg_name : Option String) (exact refresh : Bool) :
    LaunchReply × List LaunchAction × Cache :=
  if !win32 then (.failure "This tool is only supported on Windows." none, [], cache)
  else
    let app_id := pyStrip (arg_app_id.getD "")
    let name_value := pyStrip (arg_name.getD "")
    if app_id == "" && name_value == "" then
      (.failure "Provide name or app_id." none, [], cache)
    else if app_id != "" then
      match env.appIdLaunch app_id with
      | none => (.success ⟨none, some app_id, none, "startapps"⟩, [.appId app_id], cache)
      | some e => (.failure ("Failed to launch AppID: " ++ e) none, [.appId app_id], cache)
    else
      let pr := get_all_apps cache now refresh startApps regApps
      let name_key := normalize_name name_value
      let ms := computeMatches pr.1 name_key exact
      match ms with
      | [] => (.failure ("No apps found matching " ++ name_value ++ ".") none, [], pr.2)
      | [m] =>
        let r := launchSingle env m
        (r.1, r.2, pr.2)
      | _ :: _ :: _ =>
        (.failure "Multiple matches found. Use a more specific name or app_id."
          (some ((ms.take 10).map candidateOf)), [], pr.2)

theorem foldl_keep_filter (pred : App → Bool) : ∀ (l acc : List App),
    l.foldl (fun acc a => if pred a then acc ++ [a] else acc) acc = acc ++ l.filter pred
  | [], acc => by simp
  | a :: t, acc => by
    rw [List.foldl_cons, List.filter_cons]
    cases hpa : pred a
    · rw [if_neg (by simp [hpa]), foldl_keep_filter pred t acc]
      simp [hpa]
    · rw [if_pos (by simp [hpa]), foldl_keep_filter pred t (acc ++ [a])]
      simp [hpa]

theorem upsert_fst : ∀ (m : List (String × App)) (key : String) (a : App),
    (upsert m key a).map Prod.fst
      = if key ∈ m.map Prod.fst then m.map Prod.fst else m.map Prod.fst ++ [key]
  | [], key, a => by simp [upsert]
  | (k, e) :: rest, key, a => by
    simp only [upsert]
    by_cases hk : k = key
    · subst hk; simp
    · rw [if_neg hk]
      simp only [List.map_cons]
      rw [upsert_fst rest key a]
      by_cases hmem : key ∈ rest.map Prod.fst
      · simp [hmem, hk, Ne.symm hk]
      · simp [hmem, hk, Ne.symm hk]

theorem upsert_fst_nodup (m : List (String × App)) (key : String) (a : App)
    (h : (m.map Prod.fst).Nodup) : ((upsert m key a).map Prod.fst).Nodup := by
  rw [upsert_fst]
  by_cases hm : key ∈ m.map Prod.fst
  · simpa [hm] using h
  · rw [if_neg hm]
    refine List.Nodup.append h (List.nodup_singleton key) ?_
    intro x hx hxk
    rw [List.mem_singleton] at hxk
    exact hm (hxk ▸ hx)

theorem upsert_snd_key : ∀ (m : List (String × App)) (key : String) (a : App),
    key = keyOf a → (∀ e ∈ m, e.1 = keyOf e.2) →
    ∀ e ∈ upsert m key a, e.1 = keyOf e.2
  | [], key, a, hk, _, e, he => by
    simp [upsert] at he; subst he; simpa using hk
  | (k, x) :: rest, key, a, hk, hm, e, he => by
    simp only [upsert] at he
    by_cases hke : k = key
    · rw [if_pos hke] at he
      rcases List.mem_cons.mp he with h1 | h1
      · subst h1
        have hx : k = keyOf x := hm (k, x) (by simp)
        exact hx
      · exact hm e (List.mem_cons_of_mem _ h1)
    · rw [if_neg hke] at he
      rcases List.mem_cons.mp he with h1 | h1
      · subst h1; exact hm (k, x) (by simp)
      · exact upsert_snd_key rest key a hk
          (fun e he => hm e (List.mem_cons_of_mem _ he)) e h1

theorem build_map_good :
    ∀ (apps : List App) (m : List (String × App)),
      (m.map Prod.fst).Nodup → (∀ e ∈ m, e.1 = keyOf e.2) →
      (((apps.foldl (fun m a => upsert m (normalize_name a.name) a) m).map Prod.fst).Nodup
        ∧ ∀ e ∈ apps.foldl (fun m a => upsert m (normalize_name a.name) a) m,
            e.1 = keyOf e.2)
  | [], _, h1, h2 => ⟨h1, h2⟩
  | a :: t, m, h1, h2 => by
    simp only [List.foldl_cons]
    exact build_map_good t _ (upsert_fst_nodup m _ a h1) (upsert_snd_key m _ a rfl h2)

theorem dedupe_keys_nodup (apps : List App) : ((dedupe_apps apps).map keyOf).Nodup := by
  have h := build_map_good apps [] (by simp) (by simp)
  unfold dedupe_apps
  rw [List.map_map]
  have heq :
      List.map (keyOf ∘ Prod.snd)
          (apps.foldl (fun m a => upsert m (normalize_name a.name) a) [])
        = List.map Prod.fst
            (apps.foldl (fun m a => upsert m (normalize_name a.name) a) []) :=
    List.map_congr_left (fun e he => (h.2 e he).symm)
  rw [heq]
  exact h.1

theorem rebuild_keys_nodup (apps : List App) : ((rebuild apps).map keyOf).Nodup := by
  have hp : (rebuild apps).Perm (dedupe_apps apps) := List.perm_insertionSort nameLe _
  exact ((hp.map keyOf).symm).nodup (dedupe_keys_nodup apps)

theorem rebuild_sorted (apps : List App) : List.Sorted nameLe (rebuild apps) :=
  List.sorted_insertionSort nameLe _

theorem filter_key_len_le_one (k : String) :
    ∀ (l : List App), ((l.map keyOf).Nodup) →
      (l.filter (fun a => normalize_name a.name == k)).length ≤ 1
  | [], _ => by simp
  | a :: t, h => by
    simp only [List.map_cons, List.nodup_cons] at h
    rcases h with ⟨hna, hnt⟩
    simp only [List.filter_cons]
    cases hk : (normalize_name a.name == k)
    · simpa using filter_key_len_le_one k t hnt
    · have hak : keyOf a = k := by simpa [keyOf] using hk
      have hnil : t.filter (fun a => normalize_name a.name == k) = [] := by
        rw [List.filter_eq_nil_iff]
        intro b hb hbk
        have hbk2 : keyOf b = k := by simpa [keyOf] using hbk
        exact hna (List.mem_map.mpr ⟨b, hb, by rw [hbk2, hak]⟩)
      simp [hnil]

theorem sortedUnion_sorted (a b : List String) : List.Sorted strLeR (sortedUnion a b) :=
  List.sorted_insertionSort strLeR _

theorem sortedUnion_nodup (a b : List String) : (sortedUnion a b).Nodup :=
  ((List.perm_insertionSort strLeR ((a ++ b).dedup)).nodup_iff).mpr (List.nodup_dedup _)

theorem sortedUnion_mem (a b : List String) (s : String) :
    s ∈ sortedUnion a b ↔ s ∈ a ∨ s ∈ b := by
  rw [sortedUnion, (List.perm_insertionSort strLeR _).mem_iff, List.mem_dedup,
    List.mem_append]

def fooStartMenu : App :=
  { name := "Foo", app_id := some "AppX", sources := ["startapps"] }

def fooRegistry : App :=
  { name := "Foo", exe_path := some "C:\\foo.exe", sources := ["registry"] }

def notepadApp : App :=
  { name := "Notepad", app_id := some "Vendor.Notepad", sources := ["startapps"] }

def chromeOne : App :=
  { name := "Chrome Canary", app_id := some "Chrome.Canary", sources := ["startapps"] }

def chromeTwo : App :=
  { name := "Google Chrome", exe_path := some "C:\\chrome\\chrome.exe",
    sources := ["registry"] }

def envOk : Env := ⟨fun _ => true, fun _ => none, fun _ _ => none⟩

def envFailPS : PSEnv := ⟨true, some ⟨1, "oops", PSParse.failed⟩⟩

def envRaisePS : PSEnv := ⟨true, none⟩

def envBadItemPS : PSEnv :=
  ⟨true, some ⟨0, "[1]", PSParse.arr [PSElem.nondict]⟩⟩

def replyMethod : LaunchReply → Option String
  | .success i => some i.method
  | .failure _ _ => none

theorem mergeField_cases (p i : Option String) :
    mergeField p i = if truthy p then p else if truthy i then i else p := by
  unfold mergeField
  cases hp : truthy p <;> cases hi : truthy i <;> simp [hp, hi]

/-- Claim C1, counterexample: the start-menu collector of the source tags
its records startapps, not startmenu, so the merged record of the Foo
example carries sources registry and startapps; the source list claimed by
the spec does not occur. -/
theorem merge_startmenu_tag_counterexample :
    (merge_apps fooStartMenu fooRegistry).sources = ["registry", "startapps"]
    ∧ (merge_apps fooStartMenu fooRegistry).sources ≠ ["registry", "startmenu"] :=
  ⟨by decide, by decide⟩

/-- Claim C1 (amended): merging keeps the earlier-processed, non-empty
field values, fills gaps with incoming values, retains the first-seen
display name, and yields as sources the sorted duplicate-free union of the
two source sets; the Foo example merges to the claimed record with the
start-menu tag written startapps as in the source. -/
theorem merge_engine_amended :
    (∀ p i : App,
      (merge_apps p i).name = p.name
      ∧ (merge_apps p i).app_id
          = (if truthy p.app_id then p.app_id
             else if truthy i.app_id then i.app_id else p.app_id)
      ∧ (merge_apps p i).exe_path
          = (if truthy p.exe_path then p.exe_path
             else if truthy i.exe_path then i.exe_path else p.exe_path)
      ∧ (merge_apps p i).version
          = (if truthy p.version then p.version
             else if truthy i.version then i.version else p.version)
      ∧ (merge_apps p i).publisher
          = (if truthy p.publisher then p.publisher
             else if truthy i.publisher then i.publisher else p.publisher)
      ∧ (merge_apps p i).install_location
          = (if truthy p.install_location then p.install_location
             else if truthy i.install_location then i.install_location
             else p.install_location)
      ∧ List.Sorted strLeR (merge_apps p i).sources
      ∧ (merge_apps p i).sources.Nodup
      ∧ ∀ s : String, s ∈ (merge_apps p i).sources ↔ s ∈ p.sources ∨ s ∈ i.sources)
    ∧ merge_apps fooStartMenu fooRegistry
        = { name := "Foo", app_id := some "AppX", exe_path := some "C:\\foo.exe",
            sources := ["registry", "startapps"] } := by
  constructor
  · intro p i
    exact ⟨rfl, mergeField_cases _ _, mergeField_cases _ _, mergeField_cases _ _,
      mergeField_cases _ _, mergeField_cases _ _, sortedUnion_sorted _ _,
      sortedUnion_nodup _ _, fun s => sortedUnion_mem _ _ s⟩
  · decide

/-- Claim C2, counterexample: a held snapshot that is empty is rebuilt even
though its age (50 seconds) is below the TTL and refresh is off, because
the cache-hit test also requires a non-empty app list. -/
theorem cache_ttl_counterexample :
    ((150 : Int) - 100 < CACHE_TTL_SECONDS)
    ∧ get_all_apps ⟨100, []⟩ 150 false [fooStartMenu] []
        ≠ (([] : List App), (⟨100, ([] : List App)⟩ : Cache)) :=
  ⟨by decide, by decide⟩

/-- Claim C2 (amended): with refresh off, a held NON-EMPTY snapshot younger
than the 300 second TTL is returned unchanged, same apps and same
timestamp; in every other case (refresh on, empty or missing snapshot, or
age at least the TTL) the collector contributions are merged into a fresh
snapshot stamped with the current time, which wholesale replaces the held
one. -/
theorem cache_ttl_amended (cache : Cache) (now : Int) (refresh : Bool)
    (startApps regApps : List App) :
    ((refresh = false ∧ cache.apps ≠ [] ∧ now - cache.timestamp < CACHE_TTL_SECONDS) →
        get_all_apps cache now refresh startApps regApps = (cache.apps, cache))
    ∧ (¬(refresh = false ∧ cache.apps ≠ [] ∧ now - cache.timestamp < CACHE_TTL_SECONDS) →
        get_all_apps cache now refresh startApps regApps
          = (rebuild (startApps ++ regApps), ⟨now, rebuild (startApps ++ regApps)⟩)) := by
  have hcond : (!refresh && !cache.apps.isEmpty
      && decide (now - cache.timestamp < CACHE_TTL_SECONDS)) = true
      ↔ (refresh = false ∧ cache.apps ≠ [] ∧ now - cache.timestamp < CACHE_TTL_SECONDS) := by
    simp [List.isEmpty_iff, and_assoc]
  constructor
  · intro h
    unfold get_all_apps
    rw [if_pos (hcond.mpr h)]
  · intro h
    unfold get_all_apps
    rw [if_neg (fun hc => h (hcond.mp hc))]

/-- Witness for the amended claim C2: at age 299 the non-empty snapshot is
returned unchanged, at age 301 a rebuild restamps the snapshot. -/
theorem cache_ttl_amended_witness :
    get_all_apps ⟨0, [fooStartMenu]⟩ 299 false [] [] = ([fooStartMenu], ⟨0, [fooStartMenu]⟩)
    ∧ (get_all_apps ⟨0, [fooStartMenu]⟩ 301 false [] []).2.timestamp = 301 :=
  ⟨(cache_ttl_amended ⟨0, [fooStartMenu]⟩ 299 false [] []).1 ⟨rfl, by decide, by decide⟩,
   by rw [(cache_ttl_amended ⟨0, [fooStartMenu]⟩ 301 false [] []).2 (by decide)]⟩

/-- Claim C6: every rebuilt snapshot has pairwise distinct normalized keys
and is sorted by case-insensitive display name, and consequently an
exact-name match selects at most one candidate. -/
theorem snapshot_unique_sorted : ∀ apps : List App,
    ((rebuild apps).map keyOf).Nodup
    ∧ List.Sorted nameLe (rebuild apps)
    ∧ ∀ k : String, (computeMatches (rebuild apps) k true).length ≤ 1 := by
  intro apps
  refine ⟨rebuild_keys_nodup apps, rebuild_sorted apps, fun k => ?_⟩
  simpa [computeMatches] using
    filter_key_len_le_one k (rebuild apps) (rebuild_keys_nodup apps)

/-- Claim C9: when the held app list is empty, an access with refresh off
rebuilds the snapshot via the collectors regardless of the snapshot age. -/
theorem empty_cache_always_rebuilds (cache : Cache) (now : Int)
    (startApps regApps : List App) (h : cache.apps = []) :
    get_all_apps cache now false startApps regApps
      = (rebuild (startApps ++ regApps), ⟨now, rebuild (startApps ++ regApps)⟩) := by
  unfold get_all_apps
  rw [if_neg (by simp [h])]

/-- Witness for claim C9: an empty snapshot aged 50 seconds, well below the
TTL, is still rebuilt from the collector contributions. -/
theorem empty_cache_always_rebuilds_witness :
    ((150 : Int) - 100 < CACHE_TTL_SECONDS)
    ∧ get_all_apps ⟨100, []⟩ 150 false [fooStartMenu] []
        = ([fooStartMenu], ⟨150, [fooStartMenu]⟩) :=
  ⟨by decide,
   (empty_cache_always_rebuilds ⟨100, []⟩ 150 [fooStartMenu] [] rfl).trans (by decide)⟩

/-- Claim C10: when both the name and app_id arguments strip to the empty
string, the handler answers the missing-target failure, touches neither
the cache nor any launcher, and ignores the collector inputs. -/
theorem missing_target_thm (env : Env) (cache : Cache) (now : Int)
    (startApps regApps : List App) (arg_app_id arg_name : Option String)
    (exact refresh : Bool)
    (h1 : pyStrip (arg_app_id.getD "") = "") (h2 : pyStrip (arg_name.getD "") = "") :
    launch_app true env cache now startApps regApps arg_app_id arg_name exact refresh
      = (.failure "Provide name or app_id." none, [], cache) := by
  simp [launch_app, h1, h2]

/-- Witness for claim C10 at a whitespace-only app_id and a missing name. -/
theorem missing_target_witness :
    pyStrip ((some "   " : Option String).getD "") = ""
    ∧ launch_app true envOk ⟨0, [fooStartMenu]⟩ 0 [] [] (some "   ") none false false
        = (.failure "Provide name or app_id." none, [], ⟨0, [fooStartMenu]⟩) :=
  ⟨by decide,
   missing_target_thm envOk ⟨0, [fooStartMenu]⟩ 0 [] [] (some "   ") none false false
     (by decide) (by decide)⟩

theorem pyStrip_empty : pyStrip "" = "" := by decide

theorem queryLoop_eq_filter (ir ist : Bool) (q : String) (apps : List App) :
    queryLoop ir ist q apps
      = apps.filter (fun a =>
          allowedBySource ir ist a
            && (q == "" || occursIn q.toList (pyCasefold a.name).toList)) := by
  unfold queryLoop
  have hstep :
      (fun (acc : List App) (app : App) =>
        if !allowedBySource ir ist app then acc
        else if q != "" && !occursIn q.toList (pyCasefold app.name).toList then acc
        else acc ++ [app])
      = (fun (acc : List App) (app : App) =>
          if allowedBySource ir ist app
              && (q == "" || occursIn q.toList (pyCasefold app.name).toList)
            then acc ++ [app] else acc) := by
    funext acc app
    cases ha : allowedBySource ir ist app <;> cases hq : (q == "") <;>
      cases ho : occursIn q.toList (pyCasefold app.name).toList <;> simp_all
  rw [hstep, foldl_keep_filter]
  simp

/-- Claim C5, counterexample: a limit argument of 0 is falsy in the source
and is replaced by the default 200 instead of clamping the result to
max(1, 0) = 1 element: a query with limit 0 over a two-record snapshot
returns both records. -/
theorem limit_zero_counterexample :
    (list_installed_apps true ⟨0, [chromeOne, chromeTwo]⟩ 0 [] [] none (some 0)
        true true false).1
      = .ok ⟨2, [chromeOne, chromeTwo]⟩
    ∧ ¬((2 : Int) ≤ max 1 0) :=
  ⟨rfl, by decide⟩

/-- Claim C5 (amended): the query answer is exactly the snapshot records
that pass the OR source filter (registry tag enabled by include_registry,
startapps tag by include_start_apps) and contain the case-folded stripped
query in their case-folded name (an empty or missing query passes all),
truncated to max(1, limit) elements, except that a missing or ZERO limit
argument means the default 200; the snapshot list itself is passed through
the filtering unchanged. -/
theorem query_service_amended (cache : Cache) (now : Int)
    (startApps regApps : List App) (arg_query : Option String)
    (arg_limit : Option Int) (include_registry include_start refresh : Bool) :
    list_installed_apps true cache now startApps regApps arg_query arg_limit
        include_registry include_start refresh
      = (let apps := (get_all_apps cache now refresh startApps regApps).1
         let q := pyCasefold (pyStrip (arg_query.getD ""))
         let lim : Int := match arg_limit with
           | none => 200
           | some n => if n = 0 then 200 else n
         let kept := (apps.filter (fun a =>
             allowedBySource include_registry include_start a
               && (q == "" || occursIn q.toList (pyCasefold a.name).toList))).take
                 (max 1 lim).toNat
         (.ok ⟨kept.length, kept⟩,
          (get_all_apps cache now refresh startApps regApps).2)) := by
  simp only [list_installed_apps, queryLoop_eq_filter]
  rfl

/-- Claim C7, counterexample: a launch request with an explicit app_id that
succeeds is tagged with method startapps, not appid-direct. -/
theorem appid_direct_tag_counterexample :
    replyMethod (launch_app true envOk ⟨0, []⟩ 0 [] [] (some "Vendor.X") none
        false false).1 = some "startapps"
    ∧ replyMethod (launch_app true envOk ⟨0, []⟩ 0 [] [] (some "Vendor.X") none
        false false).1 ≠ some "appid-direct" :=
  ⟨by decide, by decide⟩

/-- Claim C7 (amended): a request supplying a non-empty app_id bypasses the
inventory entirely (the cache is untouched and the collector inputs are
irrelevant) and invokes the AppId launcher directly on the stripped id;
the reply is that launcher outcome, with success tagged method startapps
rather than appid-direct. -/
theorem explicit_id_path_amended (env : Env) (cache : Cache) (now : Int)
    (startApps regApps : List App) (arg_app_id arg_name : Option String)
    (exact refresh : Bool) (h : pyStrip (arg_app_id.getD "") ≠ "") :
    launch_app true env cache now startApps regApps arg_app_id arg_name exact refresh
      = (match env.appIdLaunch (pyStrip (arg_app_id.getD "")) with
         | none =>
           (.success ⟨none, some (pyStrip (arg_app_id.getD "")), none, "startapps"⟩,
            [LaunchAction.appId (pyStrip (arg_app_id.getD ""))], cache)
         | some e =>
           (.failure ("Failed to launch AppID: " ++ e) none,
            [LaunchAction.appId (pyStrip (arg_app_id.getD ""))], cache)) := by
  have hb : (pyStrip (arg_app_id.getD "") == "") = false := by simpa using h
  simp [launch_app, hb]
  intro hcontra
  exact absurd hcontra h

/-- Witness for the amended claim C7: a concrete explicit-id launch that
succeeds, leaving the cache as it was. -/
theorem explicit_id_path_amended_witness :
    pyStrip ((some "Vendor.X" : Option String).getD "") ≠ ""
    ∧ launch_app true envOk ⟨5, [notepadApp]⟩ 0 [] [] (some "Vendor.X") none false false
        = (.success ⟨none, some "Vendor.X", none, "startapps"⟩,
           [LaunchAction.appId "Vendor.X"], ⟨5, [notepadApp]⟩) :=
  ⟨by decide,
   (explicit_id_path_amended envOk ⟨5, [notepadApp]⟩ 0 [] [] (some "Vendor.X") none
       false false (by decide)).trans (by decide)⟩

/-- Claim C3: when a launch-by-name request resolves to exactly one
candidate, the handler follows the priority chain: a truthy app_id invokes
the AppId launcher on it; otherwise a truthy exe_path that exists on disk
invokes the Exe launcher on that path with the parent directory of the
executable as working directory; otherwise the request ends with the
no-launch-method failure and no launcher is invoked. -/
theorem single_candidate_priority_chain (env : Env) (cache : Cache) (now : Int)
    (startApps regApps : List App) (arg_name : Option String)
    (exact refresh : Bool) (m : App)
    (hname : pyStrip (arg_name.getD "") ≠ "")
    (hm : computeMatches (get_all_apps cache now refresh startApps regApps).1
            (normalize_name (pyStrip (arg_name.getD ""))) exact = [m]) :
    (truthy m.app_id = true →
        (launch_app true env cache now startApps regApps none arg_name exact refresh).2.1
          = [LaunchAction.appId (m.app_id.getD "")])
    ∧ (truthy m.app_id = false →
        (truthy m.exe_path && env.fileExists (m.exe_path.getD "")) = true →
        (launch_app true env cache now startApps regApps none arg_name exact refresh).2.1
          = [LaunchAction.exe (m.exe_path.getD "") (parentDir (m.exe_path.getD ""))])
    ∧ (truthy m.app_id = false →
        (truthy m.exe_path && env.fileExists (m.exe_path.getD "")) = false →
        (launch_app true env cache now startApps regApps none arg_name exact refresh)
          = (.failure "No launch method available for this app. Try using app_id from list_installed_apps." none,
             [], (get_all_apps cache now refresh startApps regApps).2)) := by
  have hn : (pyStrip (arg_name.getD "") == "") = false := by simpa using hname
  have hmain : launch_app true env cache now startApps regApps none arg_name exact refresh
      = ((launchSingle env m).1, (launchSingle env m).2,
         (get_all_apps cache now refresh startApps regApps).2) := by
    simp [launch_app, pyStrip_empty, hn, hm]
  refine ⟨?_, ?_, ?_⟩
  · intro ha
    rw [hmain]
    show (launchSingle env m).2 = _
    simp only [launchSingle, ha]
    cases he : env.appIdLaunch (m.app_id.getD "") <;> simp [he]
  · intro ha hexe
    rw [hmain]
    show (launchSingle env m).2 = _
    simp only [launchSingle, ha, hexe]
    cases he : env.exeLaunch (m.exe_path.getD "") (parentDir (m.exe_path.getD "")) <;>
      simp [he]
  · intro ha hexe
    rw [hmain]
    simp [launchSingle, ha, hexe]

/-- Witness for claim C3: an exact-name launch of a single record with an
app_id invokes the AppId launcher on that id. -/
theorem single_candidate_priority_chain_witness :
    pyStrip ((some "Notepad" : Option String).getD "") ≠ ""
    ∧ computeMatches (get_all_apps ⟨0, [notepadApp]⟩ 0 false [] []).1
        (normalize_name (pyStrip ((some "Notepad" : Option String).getD ""))) true
        = [notepadApp]
    ∧ (launch_app true envOk ⟨0, [notepadApp]⟩ 0 [] [] none (some "Notepad")
        true false).2.1 = [LaunchAction.appId "Vendor.Notepad"] := by
  refine ⟨by decide, by decide, ?_⟩
  have h := (single_candidate_priority_chain envOk ⟨0, [notepadApp]⟩ 0 [] []
      (some "Notepad") true false notepadApp (by decide) (by decide)).1 (by decide)
  simpa [notepadApp] using h

/-- Claim C4: a launch-by-name request with more than one candidate answers
the ambiguous-match failure carrying exactly the first at most ten
candidates, each reduced to name, app_id and exe_path, and invokes no
launcher. -/
theorem ambiguous_match_no_launch (env : Env) (cache : Cache) (now : Int)
    (startApps regApps : List App) (arg_name : Option String)
    (exact refresh : Bool) (a b : App) (rest : List App)
    (hname : pyStrip (arg_name.getD "") ≠ "")
    (hm : computeMatches (get_all_apps cache now refresh startApps regApps).1
            (normalize_name (pyStrip (arg_name.getD ""))) exact = a :: b :: rest) :
    launch_app true env cache now startApps regApps none arg_name exact refresh
      = (.failure "Multiple matches found. Use a more specific name or app_id."
           (some (((a :: b :: rest).take 10).map candidateOf)), [],
         (get_all_apps cache now refresh startApps regApps).2) := by
  have hn : (pyStrip (arg_name.getD "") == "") = false := by simpa using hname
  simp [launch_app, pyStrip_empty, hn, hm]

/-- Witness for claim C4: two records whose names contain chrome produce the
ambiguous failure listing both candidates and perform no launch. -/
theorem ambiguous_match_no_launch_witness :
    pyStrip ((some "chrome" : Option String).getD "") ≠ ""
    ∧ computeMatches (get_all_apps ⟨0, [chromeOne, chromeTwo]⟩ 0 false [] []).1
        (normalize_name (pyStrip ((some "chrome" : Option String).getD ""))) false
        = [chromeOne, chromeTwo]
    ∧ launch_app true envOk ⟨0, [chromeOne, chromeTwo]⟩ 0 [] [] none (some "chrome")
        false false
      = (.failure "Multiple matches found. Use a more specific name or app_id."
           (some [candidateOf chromeOne, candidateOf chromeTwo]), [],
         ⟨0, [chromeOne, chromeTwo]⟩) := by
  refine ⟨by decide, by decide, ?_⟩
  have h := ambiguous_match_no_launch envOk ⟨0, [chromeOne, chromeTwo]⟩ 0 [] []
      (some "chrome") false false chromeOne chromeTwo [] (by decide) (by decide)
  exact h.trans (by decide)

/-- Failure modes of the start-menu collector that the source absorbs into
an empty contribution: a nonzero exit code, blank output, json.loads
raising, or a top-level JSON value that is neither a dict nor a list. A
PSEnv whose run is none is NOT absorbed: that models subprocess.run itself
raising, which the source does not catch. -/
def psAbsorbedFailure (env : PSEnv) : Bool :=
  match env.run with
  | none => false
  | some r =>
    (r.returncode != 0) || (pyStrip r.stdout == "")
      || (r.parsed == PSParse.failed) || (r.parsed == PSParse.other)

theorem get_start_apps_absorbed (env : PSEnv) (h : psAbsorbedFailure env = true) :
    get_start_apps env = .ok [] := by
  unfold psAbsorbedFailure at h
  unfold get_start_apps
  cases hp : env.platformWin32
  · simp
  · cases hrun : env.run with
    | none => rw [hrun] at h; simp at h
    | some r =>
      rw [hrun] at h
      simp only [Bool.or_eq_true, bne_iff_ne, beq_iff_eq] at h
      simp only [Bool.not_true, Bool.false_eq_true, if_false]
      rcases h with ((h | h) | h) | h <;>
        cases hr : (r.returncode != 0) <;> cases hs : (pyStrip r.stdout == "") <;>
          simp_all

/-- Claim C8, counterexample: the source wraps neither the subprocess.run
call (line 106) nor the per-element item.get calls (line 126) in a try
block, so a collector that raises there aborts the rebuild instead of
contributing an empty sequence: with the PowerShell spawn raising, or with
a parsed JSON list holding a non-dict element, the rebuild propagates the
exception and builds no snapshot. -/
theorem collector_raise_counterexample :
    get_start_apps envRaisePS = .error "subprocess.run raised"
    ∧ get_all_apps_with_collector ⟨0, []⟩ 7 true envRaisePS [fooRegistry]
        = .error "subprocess.run raised"
    ∧ get_start_apps envBadItemPS = .error "AttributeError: item.get"
    ∧ get_all_apps_with_collector ⟨0, []⟩ 7 true envBadItemPS [fooRegistry]
        = .error "AttributeError: item.get" :=
  ⟨rfl, rfl, rfl, rfl⟩

/-- Claim C8 (amended): when the start-menu collector fails in a mode the
source inspects and absorbs (nonzero exit code, blank output, json.loads
raising, or a top-level JSON value of the wrong shape), it contributes the
empty sequence and a forced rebuild completes: the snapshot is exactly the
rebuilt registry contribution and satisfies the snapshot invariants. When
the collector raises an exception the source does not catch (the
subprocess.run call itself raising, or a parsed JSON list containing a
non-dict element), the exception propagates out of the rebuild and no
snapshot is built or stored. -/
theorem collector_failure_amended (env : PSEnv) (regApps : List App)
    (cache : Cache) (now : Int) :
    (psAbsorbedFailure env = true →
        get_start_apps env = .ok []
        ∧ get_all_apps_with_collector cache now true env regApps
            = .ok (rebuild regApps, ⟨now, rebuild regApps⟩)
        ∧ ((rebuild regApps).map keyOf).Nodup
        ∧ List.Sorted nameLe (rebuild regApps))
    ∧ (∀ e, get_start_apps env = .error e →
        get_all_apps_with_collector cache now true env regApps = .error e) := by
  constructor
  · intro h
    have hok := get_start_apps_absorbed env h
    refine ⟨hok, ?_, rebuild_keys_nodup regApps, rebuild_sorted regApps⟩
    unfold get_all_apps_with_collector
    rw [if_neg (by simp), hok]
    simp
  · intro e he
    unfold get_all_apps_with_collector
    rw [if_neg (by simp), he]

/-- Witness for the amended claim C8: a nonzero-exit PowerShell call is
absorbed and the rebuild from the registry contribution goes through,
while a raising spawn propagates its exception out of the rebuild. -/
theorem collector_failure_amended_witness :
    psAbsorbedFailure envFailPS = true
    ∧ (get_start_apps envFailPS = .ok []
       ∧ get_all_apps_with_collector ⟨0, []⟩ 7 true envFailPS [fooRegistry]
           = .ok (rebuild [fooRegistry], ⟨7, rebuild [fooRegistry]⟩)
       ∧ (((rebuild [fooRegistry]).map keyOf).Nodup)
       ∧ List.Sorted nameLe (rebuild [fooRegistry]))
    ∧ get_all_apps_with_collector ⟨0, []⟩ 7 true envRaisePS []
        = .error "subprocess.run raised" :=
  ⟨by decide,
   (collector_failure_amended envFailPS [fooRegistry] ⟨0, []⟩ 7).1 (by decide),
   (collector_failure_amended envRaisePS [] ⟨0, []⟩ 7).2 "subprocess.run raised" rfl⟩
